import Mathlib

/-
Verification development for the query-builder core of the repository
(`pkg/orm/orm.go`).  The Go source is shallowly embedded: pure string
building is translated to Lean functions on `String`/`List`, the
`interface{}` values bound to positional parameters become the inductive
`Orm.Value`, the `map[string]interface{}` field sets of `Create`/`Update`
become association lists together with an explicit iteration order
(Go's map range order is unspecified), database execution becomes an
explicit oracle argument, and the panic on an invalid operator is modelled
as an `Except.error` result (the spec re-architects it that way in §9).
The statement cache's double-checked locking (`prepareQuery`) is modelled
as a small interleaving transition system at the end of the definitions.
-/

namespace Orm

/-- Error values declared at the top of orm.go: `ErrNoRows` ("no rows found",
spec name NotFound), `ErrInvalidOperator` (spec name InvalidOperator),
`ErrInvalidValue` (spec name InvalidArgument); `other` models the ad-hoc
`fmt.Errorf` failures. -/
inductive OrmError where
  | noRows
  | invalidOperator
  | invalidValue
  | other (msg : String)
deriving DecidableEq, Repr

/-- Dynamically-typed bound values (`interface{}` in the source).  Values are
opaque to the builder: they are only ever forwarded positionally. -/
inductive Value where
  | int (i : Int)
  | str (s : String)
  | time (t : Nat)
  | null
deriving DecidableEq, Repr

/-- whereClause struct from orm.go. -/
structure WhereClause where
  column : String
  operator : String
  value : Value
deriving DecidableEq, Repr

/-- joinClause struct from orm.go. -/
structure JoinClause where
  table : String
  joinType : String
  condition : String
  args : List Value
deriving DecidableEq, Repr

/-- havingClause struct from orm.go. -/
structure HavingClause where
  condition : String
  args : List Value
deriving DecidableEq, Repr

/-- Query struct from orm.go (the query descriptor).  Zero values of the Go
struct are the defaults here. -/
structure Query where
  table : String := ""
  selections : List String := []
  wheres : List WhereClause := []
  orWheres : List WhereClause := []
  joins : List JoinClause := []
  limit : Int := 0
  offset : Int := 0
  orderBy : String := ""
  orderDir : String := ""
  groupBy : List String := []
  having : List HavingClause := []
deriving DecidableEq, Repr

/-- Model struct from orm.go.  The `db` and `ctx` fields are not part of the
rendering state: the database is passed to terminal operations as an explicit
oracle and the context plays no role in rendered text. -/
structure Model where
  query : Query
deriving DecidableEq, Repr

/-- Models `strings.Join(elems, sep)` from the Go standard library. -/
def joinSep (sep : String) : List String → String
  | [] => ""
  | [x] => x
  | x :: y :: xs => x ++ sep ++ joinSep sep (y :: xs)

/-- Character predicate of `sanitizeColumn`:
`(r >= 'a' && r <= 'z') || (r >= 'A' && r <= 'Z') || (r >= '0' && r <= '9') || r == '_'`. -/
def isIdentChar (r : Char) : Bool :=
  (decide ('a' ≤ r) && decide (r ≤ 'z')) || (decide ('A' ≤ r) && decide (r ≤ 'Z'))
    || (decide ('0' ≤ r) && decide (r ≤ '9')) || r == '_'

/-- Models `strings.Map`: the mapping function returning `none` models the Go
callback returning a negative rune, which drops the character. -/
def stringsMap (f : Char → Option Char) (s : String) : String :=
  String.mk (s.data.filterMap f)

/-- sanitizeColumn from orm.go: keep `[A-Za-z0-9_]`, silently drop everything
else.  Pure function, as in the source (the Go closure has no side effect). -/
def sanitizeColumn (column : String) : String :=
  stringsMap (fun r => if isIdentChar r then some r else none) column

/-- sanitizeTableName from orm.go. -/
def sanitizeTableName (table : String) : String :=
  sanitizeColumn table

/-- sanitizeColumns from orm.go. -/
def sanitizeColumns (columns : List String) : List String :=
  columns.map sanitizeColumn

/-- Models `strings.ToUpper` on the ASCII range (Char.toUpper maps a-z to A-Z
and leaves every other character unchanged), which covers the operator
allow-list. -/
def goToUpper (s : String) : String :=
  String.mk (s.data.map Char.toUpper)

/-- validOperators from orm.go; the Go map with all-true entries is modelled
as the list of its keys, lookup as list membership. -/
def validOperators : List String :=
  ["=", "<>", ">", "<", ">=", "<=", "LIKE", "NOT LIKE", "IN", "NOT IN", "IS NULL", "IS NOT NULL"]

/-- Table from orm.go: binds the builder to `tableName` and defaults the
selection to `tableName.*`.  Note that the table name is stored as given —
`Table` does not call the sanitizer. -/
def Table (tableName : String) : Model :=
  { query := { table := tableName, selections := [tableName ++ ".*"] } }

/-- Select from orm.go: replaces the selections with the sanitized columns. -/
def Select (m : Model) (columns : List String) : Model :=
  { m with query := { m.query with selections := sanitizeColumns columns } }

/-- addJoin from orm.go. -/
def addJoin (m : Model) (joinType table condition : String) (args : List Value) : Model :=
  { m with query := { m.query with joins := m.query.joins ++
      [{ table := table, joinType := joinType, condition := condition, args := args }] } }

/-- Join from orm.go: INNER JOIN with sanitized table name. -/
def Join (m : Model) (table condition : String) (args : List Value) : Model :=
  addJoin m "INNER JOIN" (sanitizeTableName table) condition args

/-- LeftJoin from orm.go. -/
def LeftJoin (m : Model) (table condition : String) (args : List Value) : Model :=
  addJoin m "LEFT JOIN" (sanitizeTableName table) condition args

/-- RightJoin from orm.go. -/
def RightJoin (m : Model) (table condition : String) (args : List Value) : Model :=
  addJoin m "RIGHT JOIN" (sanitizeTableName table) condition args

/-- Where from orm.go: validates the upper-cased operator against the
allow-list; the source `panic(ErrInvalidOperator)` on the invalid branch is
modelled as an `Except.error` result (spec §9); on success the predicate is
appended with sanitized column and upper-cased operator. -/
def Where (m : Model) (column operator : String) (value : Value) : Except OrmError Model :=
  if goToUpper operator ∈ validOperators then
    Except.ok { m with query := { m.query with wheres := m.query.wheres ++
      [{ column := sanitizeColumn column, operator := goToUpper operator, value := value }] } }
  else
    Except.error OrmError.invalidOperator

/-- OrWhere from orm.go: same validation as Where, appends to orWheres. -/
def OrWhere (m : Model) (column operator : String) (value : Value) : Except OrmError Model :=
  if goToUpper operator ∈ validOperators then
    Except.ok { m with query := { m.query with orWheres := m.query.orWheres ++
      [{ column := sanitizeColumn column, operator := goToUpper operator, value := value }] } }
  else
    Except.error OrmError.invalidOperator

/-- Text of one predicate as written by buildWhereClause:
`fmt.Sprintf("%s %s $%d", where.column, where.operator, paramIndex)`. -/
def predString (w : WhereClause) (paramIndex : Nat) : String :=
  w.column ++ " " ++ w.operator ++ " $" ++ toString paramIndex

/-- Rendering loop body for predicates that are each preceded by the
separator (the Go loops write the separator before every item whose guard
`i > 0 || len(wheres) > 0` holds); the parameter index increases by one per
predicate. -/
def renderRest (sep : String) : List WhereClause → Nat → String × List Value
  | [], _ => ("", [])
  | w :: ws, idx =>
    let rest := renderRest sep ws (idx + 1)
    (sep ++ predString w idx ++ rest.1, w.value :: rest.2)

/-- Rendering loop for a predicate group whose first item carries no leading
separator (the `i > 0` guard in the Go loops). -/
def renderGroup (sep : String) : List WhereClause → Nat → String × List Value
  | [], _ => ("", [])
  | w :: ws, idx =>
    let rest := renderRest sep ws (idx + 1)
    (predString w idx ++ rest.1, w.value :: rest.2)

/-- buildWhereClause from orm.go: empty when both groups are empty, otherwise
`" WHERE "`, the AND-group joined with `" AND "`, then the OR-group in which
every item is preceded by `" OR "` except a first item with no preceding
AND-predicate; `startIndex` is the first placeholder number and the index
increases across both loops. -/
def buildWhereClause (q : Query) (startIndex : Nat) : String × List Value :=
  if q.wheres.isEmpty && q.orWheres.isEmpty then ("", [])
  else
    let andPart := renderGroup " AND " q.wheres startIndex
    let orPart :=
      if q.wheres.isEmpty then renderGroup " OR " q.orWheres (startIndex + q.wheres.length)
      else renderRest " OR " q.orWheres (startIndex + q.wheres.length)
    (" WHERE " ++ andPart.1 ++ orPart.1, andPart.2 ++ orPart.2)

/-- Join-rendering loop of buildSelectQuery: a join with a condition renders
`" <type> <table> ON <condition>"` and contributes its args; one without a
condition renders `" <type> <table>"` and contributes nothing. -/
def joinRender : List JoinClause → String × List Value
  | [] => ("", [])
  | j :: js =>
    let rest := joinRender js
    if j.condition ≠ "" then
      (" " ++ j.joinType ++ " " ++ j.table ++ " ON " ++ j.condition ++ rest.1, j.args ++ rest.2)
    else
      (" " ++ j.joinType ++ " " ++ j.table ++ rest.1, rest.2)

/-- Having-rendering loop of buildSelectQuery: conditions joined with
`" AND "`, args appended in order. -/
def havingBody : List HavingClause → String × List Value
  | [] => ("", [])
  | [h] => (h.condition, h.args)
  | h :: h' :: hs =>
    let rest := havingBody (h' :: hs)
    (h.condition ++ " AND " ++ rest.1, h.args ++ rest.2)

/-- buildSelectQuery from orm.go: SELECT/FROM, joins, where (placeholders
starting after the join args), group-by, having, order-by, limit, offset;
the argument list is join args, then where values, then having args. -/
def buildSelectQuery (q : Query) : String × List Value :=
  let base := "SELECT " ++ joinSep ", " q.selections ++ " FROM " ++ q.table
  let jr := joinRender q.joins
  let wc := buildWhereClause q (jr.2.length + 1)
  let groupStr := if q.groupBy.isEmpty then "" else " GROUP BY " ++ joinSep ", " q.groupBy
  let hb := havingBody q.having
  let havingStr := if q.having.isEmpty then "" else " HAVING " ++ hb.1
  let orderStr := if q.orderBy ≠ "" then " ORDER BY " ++ q.orderBy ++ " " ++ q.orderDir else ""
  let limitStr := if 0 < q.limit then " LIMIT " ++ toString q.limit else ""
  let offsetStr := if 0 < q.offset then " OFFSET " ++ toString q.offset else ""
  (base ++ jr.1 ++ wc.1 ++ groupStr ++ havingStr ++ orderStr ++ limitStr ++ offsetStr,
    jr.2 ++ wc.2 ++ hb.2)

/-- Result rows (`[]map[string]interface{}`) as association lists. -/
abbrev Row := List (String × Value)

/-- Database oracle for query-shaped executions: models prepare + query +
scanRows as a single function from rendered SQL and args to rows or an
error. -/
abbrev DbExec := String → List Value → Except OrmError (List Row)

/-- Database oracle for exec-shaped executions (affected-row count). -/
abbrev DbExecCount := String → List Value → Except OrmError Int

/-- Get from orm.go: renders the select query and runs it against the
oracle. -/
def Get (exec : DbExec) (m : Model) : Except OrmError (List Row) :=
  let qa := buildSelectQuery m.query
  exec qa.1 qa.2

/-- First from orm.go: forces `limit = 1`, delegates to Get, maps an empty
result to `ErrNoRows` and otherwise returns `results[0]`. -/
def First (exec : DbExec) (m : Model) : Except OrmError Row :=
  match Get exec { m with query := { m.query with limit := 1 } } with
  | Except.error e => Except.error e
  | Except.ok [] => Except.error OrmError.noRows
  | Except.ok (r :: _) => Except.ok r

/-- Go map lookup `data[k]` on the association-list representation of
`map[string]interface{}`. -/
def mapGet (k : String) : List (String × Value) → Option Value
  | [] => none
  | (a, v) :: rest => if k = a then some v else mapGet k rest

/-- First timestamp-defaulting step of Create: the copied map, with
`created_at` set to `now` if the key does not exist.  In the list
representation the copied map is the list itself and the conditional addition
is an append. -/
def createD1 (now : Value) (data : List (String × Value)) : List (String × Value) :=
  if (mapGet "created_at" data).isSome then data else data ++ [("created_at", now)]

/-- Timestamp-defaulting of Create (`newData` in the source): after the
`created_at` step, add `updated_at` with value `now` if that key does not
exist. -/
def createNewData (now : Value) (data : List (String × Value)) : List (String × Value) :=
  let d1 := createD1 now data
  if (mapGet "updated_at" d1).isSome then d1 else d1 ++ [("updated_at", now)]

/-- Placeholder list `$1, ..., $n` produced by the Create loop (`i` starting
at 1). -/
def placeholders (n : Nat) : List String :=
  (List.range n).map (fun i => "$" ++ toString (i + 1))

/-- INSERT rendering of Create, given the order `newData` in which Go's
`range` over the (copied and timestamp-extended) map yields its entries:
columns are sanitized keys, the table is embedded as stored, values are the
entries' values in the same order. -/
def createQuery (table : String) (newData : List (String × Value)) : String × List Value :=
  ("INSERT INTO " ++ table ++ " (" ++ joinSep ", " (newData.map (fun kv => sanitizeColumn kv.1))
      ++ ") VALUES (" ++ joinSep ", " (placeholders newData.length) ++ ") RETURNING *",
    newData.map Prod.snd)

/-- Create from orm.go up to execution: an empty field map fails with
`ErrInvalidValue` before anything is rendered; otherwise the INSERT is
rendered over `iter`, the unspecified Go map iteration order of
`createNewData now data` (theorems constrain `iter` to be a permutation of
it). -/
def Create (m : Model) (data : List (String × Value)) (now : Value)
    (iter : List (String × Value)) : Except OrmError (String × List Value) :=
  if data.isEmpty then Except.error OrmError.invalidValue
  else Except.ok (createQuery m.query.table iter)

/-- Create followed by execution against the oracle: zero returned rows is
the `"no data returned after insert"` failure, otherwise `results[0]`. -/
def CreateRun (exec : DbExec) (m : Model) (data : List (String × Value)) (now : Value)
    (iter : List (String × Value)) : Except OrmError Row :=
  match Create m data now iter with
  | Except.error e => Except.error e
  | Except.ok qa =>
    match exec qa.1 qa.2 with
    | Except.error e => Except.error e
    | Except.ok [] => Except.error (OrmError.other "no data returned after insert")
    | Except.ok (r :: _) => Except.ok r

/-- SET-clause items of Update: `<sanitized col> = $i` with `i` starting
at 1. -/
def setItems : List (String × Value) → Nat → List String
  | [], _ => []
  | (column, _) :: rest, i => (sanitizeColumn column ++ " = $" ++ toString i) :: setItems rest (i + 1)

/-- UPDATE rendering of Update, given the order `iter` in which Go's `range`
over the field map yields its entries: SET items numbered from `$1`, then the
where clause with placeholders continuing at `iter.length + 1`; args are the
SET values then the where values. -/
def updateQuery (q : Query) (iter : List (String × Value)) : String × List Value :=
  let wc := buildWhereClause q (iter.length + 1)
  ("UPDATE " ++ q.table ++ " SET " ++ joinSep ", " (setItems iter 1) ++ wc.1,
    iter.map Prod.snd ++ wc.2)

/-- Update from orm.go up to execution: an empty field map fails with
`ErrInvalidValue` before anything is rendered. -/
def Update (m : Model) (data : List (String × Value)) (iter : List (String × Value)) :
    Except OrmError (String × List Value) :=
  if data.isEmpty then Except.error OrmError.invalidValue
  else Except.ok (updateQuery m.query iter)

/-- Update followed by execution against the count oracle. -/
def UpdateRun (execC : DbExecCount) (m : Model) (data iter : List (String × Value)) :
    Except OrmError Int :=
  match Update m data iter with
  | Except.error e => Except.error e
  | Except.ok qa => execC qa.1 qa.2

/-- Delete from orm.go: DELETE FROM the stored table followed by the where
clause with placeholders starting at 1. -/
def deleteQuery (q : Query) : String × List Value :=
  let wc := buildWhereClause q 1
  ("DELETE FROM " ++ q.table ++ wc.1, wc.2)

/-- Predicate items as the spec describes them: each predicate rendered with
its placeholder number, numbers starting at `offset` and increasing by one
per predicate in emission order. -/
def specPredItems (ws : List WhereClause) (offset : Nat) : List String :=
  List.zipWith (fun w i => predString w i) ws (List.range' offset ws.length)

/-- Modelled from the spec's where-clause paragraph (§4.2): no clause when
both groups are empty; otherwise `WHERE`, the AND-predicates joined with
`AND`, then the OR-predicates joined with `OR`, prefixed by `OR` exactly when
the AND-group is non-empty; placeholders numbered from the caller-supplied
offset, AND-group first. -/
def specWhereClause (q : Query) (offset : Nat) : String × List Value :=
  if q.wheres.isEmpty && q.orWheres.isEmpty then ("", [])
  else
    let andStr := joinSep " AND " (specPredItems q.wheres offset)
    let orStr := joinSep " OR " (specPredItems q.orWheres (offset + q.wheres.length))
    let body :=
      if q.wheres.isEmpty then orStr
      else if q.orWheres.isEmpty then andStr
      else andStr ++ " OR " ++ orStr
    (" WHERE " ++ body, q.wheres.map WhereClause.value ++ q.orWheres.map WhereClause.value)

/-- Modelled from the spec's Update sentence (§4.2): `UPDATE <table> SET
col = $n, ...` followed by the WHERE clause, parameters numbered globally and
monotonically starting at `$1` and continuing from the SET clause into the
WHERE clause; args are the SET values then the WHERE values. -/
def specUpdateQuery (q : Query) (fields : List (String × Value)) : String × List Value :=
  let sets := List.zipWith (fun kv i => sanitizeColumn kv.1 ++ " = $" ++ toString i)
    fields (List.range' 1 fields.length)
  let wc := specWhereClause q (fields.length + 1)
  ("UPDATE " ++ q.table ++ " SET " ++ joinSep ", " sets ++ wc.1,
    fields.map Prod.snd ++ wc.2)

/-- Thread program counter for the prepareQuery model: a caller starts before
its optimistic read under the shared lock, is `needLock` after a read miss
(waiting for the exclusive lock), and is `done h` holding statement handle
`h`. -/
inductive TState where
  | start
  | needLock
  | done (h : Nat)
deriving DecidableEq, Repr

/-- Shared state of the prepareQuery model for one fixed SQL text and `n`
concurrent callers: the cache entry for that text (handles are numbered by
creation order), the number of compilations performed, and each caller's
program counter. -/
structure CacheState (n : Nat) where
  cache : Option Nat
  compiles : Nat
  threads : Fin n → TState
deriving DecidableEq

/-- Interleaving semantics of prepareQuery for callers of one SQL text.  The
RLock-protected map read is one atomic step (`readHit`/`readMiss`); the
entire exclusive-lock section — re-check, compile, insert — is one atomic
step (`lockHit`/`lockCompile`) because the mutex serializes it. -/
inductive Step (n : Nat) : CacheState n → CacheState n → Prop where
  | readHit (s : CacheState n) (t : Fin n) (h : Nat) :
      s.threads t = TState.start → s.cache = some h →
      Step n s { s with threads := Function.update s.threads t (TState.done h) }
  | readMiss (s : CacheState n) (t : Fin n) :
      s.threads t = TState.start → s.cache = none →
      Step n s { s with threads := Function.update s.threads t TState.needLock }
  | lockHit (s : CacheState n) (t : Fin n) (h : Nat) :
      s.threads t = TState.needLock → s.cache = some h →
      Step n s { s with threads := Function.update s.threads t (TState.done h) }
  | lockCompile (s : CacheState n) (t : Fin n) :
      s.threads t = TState.needLock → s.cache = none →
      Step n s { cache := some s.compiles, compiles := s.compiles + 1,
                 threads := Function.update s.threads t (TState.done s.compiles) }

/-- Initial state of the prepareQuery model: empty cache, no compilations,
every caller before its optimistic read. -/
def initState (n : Nat) : CacheState n :=
  { cache := none, compiles := 0, threads := fun _ => TState.start }

/-- Intermediate state of a one-caller run of the prepareQuery model: the
caller read-missed and is waiting for the exclusive lock. -/
def soloRunMid : CacheState 1 :=
  ⟨none, 0, Function.update (fun _ => TState.start) (0 : Fin 1) TState.needLock⟩

/-- Final state of a one-caller run of the prepareQuery model: the caller
compiled under the exclusive lock and holds handle 0. -/
def soloRunEnd : CacheState 1 :=
  ⟨some 0, 0 + 1, Function.update soloRunMid.threads (0 : Fin 1) (TState.done 0)⟩

/-- Invariant of the prepareQuery model: either nothing has been compiled and
nobody holds a handle, or exactly one compilation has happened, it produced
handle 0, the cache holds handle 0, and every finished caller holds
handle 0. -/
def CacheInv {n : Nat} (s : CacheState n) : Prop :=
  (s.cache = none ∧ s.compiles = 0 ∧ ∀ t h, s.threads t ≠ TState.done h)
  ∨ (s.cache = some 0 ∧ s.compiles = 1 ∧ ∀ t h, s.threads t = TState.done h → h = 0)

/-- Recursive form of the spec-side predicate items, used as a bridge in the
equivalence proofs. -/
def predItemsRec : List WhereClause → Nat → List String
  | [], _ => []
  | w :: ws, idx => predString w idx :: predItemsRec ws (idx + 1)

/-- specPredItems agrees with its recursive form. -/
theorem specPredItems_eq_rec : ∀ (ws : List WhereClause) (idx : Nat),
    specPredItems ws idx = predItemsRec ws idx
  | [], _ => rfl
  | w :: ws, idx => by
    show predString w idx :: specPredItems ws (idx + 1) = _
    rw [specPredItems_eq_rec ws (idx + 1)]
    rfl

/-- The separator-before-each-item loop renders the separator followed by the
separator-joined items, and collects the predicate values in order. -/
theorem renderRest_eq (sep : String) : ∀ (ws : List WhereClause) (idx : Nat),
    renderRest sep ws idx =
      ((if ws.isEmpty then "" else sep ++ joinSep sep (predItemsRec ws idx)),
        ws.map WhereClause.value)
  | [], _ => rfl
  | [w], idx => by
    show (sep ++ predString w idx ++ (renderRest sep [] (idx + 1)).1,
      w.value :: (renderRest sep [] (idx + 1)).2) = _
    simp [renderRest, predItemsRec, joinSep, String.append_empty]
  | w :: w' :: ws, idx => by
    show (sep ++ predString w idx ++ (renderRest sep (w' :: ws) (idx + 1)).1,
      w.value :: (renderRest sep (w' :: ws) (idx + 1)).2) = _
    rw [renderRest_eq sep (w' :: ws) (idx + 1)]
    simp [predItemsRec, joinSep, String.append_assoc]

/-- The first-item-without-separator loop renders the separator-joined items
and collects the predicate values in order. -/
theorem renderGroup_eq (sep : String) (ws : List WhereClause) (idx : Nat) :
    renderGroup sep ws idx = (joinSep sep (predItemsRec ws idx), ws.map WhereClause.value) := by
  cases ws with
  | nil => rfl
  | cons w ws =>
    show (predString w idx ++ (renderRest sep ws (idx + 1)).1,
      w.value :: (renderRest sep ws (idx + 1)).2) = _
    rw [renderRest_eq sep ws (idx + 1)]
    cases ws with
    | nil => simp [predItemsRec, joinSep, String.append_empty]
    | cons w' ws' => simp [predItemsRec, joinSep, String.append_assoc]

/-- buildWhereClause implements the spec's where-clause rendering algorithm
at every descriptor and every placeholder offset. -/
theorem buildWhereClause_eq_spec (q : Query) (offset : Nat) :
    buildWhereClause q offset = specWhereClause q offset := by
  unfold buildWhereClause specWhereClause
  simp only [specPredItems_eq_rec]
  cases hw : q.wheres with
  | nil =>
    cases ho : q.orWheres with
    | nil => simp
    | cons o os =>
      simp [renderGroup_eq, predItemsRec, joinSep, String.empty_append, String.append_empty,
        String.append_assoc]
  | cons w ws =>
    cases ho : q.orWheres with
    | nil =>
      simp [renderGroup_eq, renderRest_eq, predItemsRec, joinSep, String.empty_append,
        String.append_empty, String.append_assoc]
    | cons o os =>
      simp [renderGroup_eq, renderRest_eq, predItemsRec, joinSep, String.empty_append,
        String.append_empty, String.append_assoc]

/-- C2: for every builder state and caller-supplied offset, the rendered
WHERE clause follows the spec algorithm (no WHERE text when both predicate
lists are empty; otherwise WHERE, the AND-predicates joined with AND, then
the OR-predicates joined with OR with a leading OR exactly when the AND-group
is non-empty; placeholders numbered from the offset, one per predicate, in
emission order), and the example
`Table("users").Where("id","=",1).OrWhere("id","=",2).Get()` renders
`... WHERE id = $1 OR id = $2`. -/
theorem whereClause_rendering :
    (∀ (q : Query) (offset : Nat), buildWhereClause q offset = specWhereClause q offset)
    ∧ Except.map (fun m => buildSelectQuery m.query)
        (Except.bind (Where (Table "users") "id" "=" (Value.int 1))
          (fun m => OrWhere m "id" "=" (Value.int 2)))
      = Except.ok ("SELECT users.* FROM users WHERE id = $1 OR id = $2",
          [Value.int 1, Value.int 2]) :=
  ⟨buildWhereClause_eq_spec, rfl⟩

/-- Filtering characters through an if-some-else-none mapping function is
list filtering. -/
theorem filterMap_ident_eq_filter (l : List Char) :
    l.filterMap (fun r => if isIdentChar r then some r else none) = l.filter isIdentChar := by
  induction l with
  | nil => rfl
  | cons c cs ih => cases h : isIdentChar c <;> simp [List.filterMap_cons, List.filter_cons, h, ih]

/-- Character content of sanitizeColumn: it is the filter of the identifier
character predicate. -/
theorem sanitizeColumn_data (s : String) :
    (sanitizeColumn s).data = s.data.filter isIdentChar := by
  show (s.data.filterMap (fun r => if isIdentChar r then some r else none)) = _
  exact filterMap_ident_eq_filter s.data

/-- C5: for every identifier string s, sanitize(s) contains only characters
from [A-Za-z0-9_] and is a subsequence of s (every other character silently
dropped).  The embedded function is a pure Lean function, as the Go original
is a side-effect-free strings.Map. -/
theorem sanitizeColumn_sound :
    ∀ s : String, (sanitizeColumn s).data.all isIdentChar = true
      ∧ List.Sublist (sanitizeColumn s).data s.data := by
  intro s
  rw [sanitizeColumn_data]
  refine ⟨?_, List.filter_sublist s.data⟩
  rw [List.all_eq_true]
  intro a ha
  exact (List.mem_filter.mp ha).2

/-- C4: Where and OrWhere with an operator whose upper-case normalization is
outside the allow-list fail immediately with ErrInvalidOperator, appending no
predicate and rendering no SQL (the returned error carries no query); with an
operator in the allow-list they append exactly one predicate whose stored
operator is the upper-case normalization of the input. -/
theorem operator_allowlist :
    ∀ (m : Model) (col op : String) (v : Value),
      (goToUpper op ∉ validOperators →
          Where m col op v = Except.error OrmError.invalidOperator
          ∧ OrWhere m col op v = Except.error OrmError.invalidOperator)
      ∧ (goToUpper op ∈ validOperators →
          Where m col op v = Except.ok { m with query := { m.query with
              wheres := m.query.wheres ++ [⟨sanitizeColumn col, goToUpper op, v⟩] } }
          ∧ OrWhere m col op v = Except.ok { m with query := { m.query with
              orWheres := m.query.orWheres ++ [⟨sanitizeColumn col, goToUpper op, v⟩] } }) := by
  intro m col op v
  constructor
  · intro h
    exact ⟨by simp [Where, h], by simp [OrWhere, h]⟩
  · intro h
    exact ⟨by simp [Where, h], by simp [OrWhere, h]⟩

/-- Witness for C4: the invalid operator "bogus" is rejected by Where, and
the lower-case operator "like" is accepted by OrWhere and stored as LIKE. -/
theorem operator_allowlist_witness :
    Where (Table "users") "name" "bogus" (Value.str "x")
      = Except.error OrmError.invalidOperator
    ∧ OrWhere (Table "users") "name" "like" (Value.str "x")
      = Except.ok { Table "users" with query := { (Table "users").query with
          orWheres := (Table "users").query.orWheres
            ++ [⟨sanitizeColumn "name", goToUpper "like", Value.str "x"⟩] } } :=
  ⟨((operator_allowlist (Table "users") "name" "bogus" (Value.str "x")).1 (by decide)).1,
   ((operator_allowlist (Table "users") "name" "like" (Value.str "x")).2 (by decide)).2⟩

/-- C1 counterexample: the table name supplied to Table is embedded in the
rendered SQL exactly as given — with table name "users; DROP TABLE x" the
DELETE statement contains the raw semicolon and spaces, so the table portion
of the rendered SQL is not limited to [A-Za-z0-9_]. -/
theorem table_embedded_unsanitized :
    (deleteQuery (Table "users; DROP TABLE x").query).1 = "DELETE FROM users; DROP TABLE x"
    ∧ "users; DROP TABLE x".data.all isIdentChar = false :=
  ⟨rfl, rfl⟩

/-- C1 (amended): the sanitizer is applied to column names (Select, Where,
Create/Update field keys) and to join table names, but the table name
supplied to Table is stored and embedded verbatim — unsanitized — in the SQL
rendered by Get, Create, Update, and Delete. -/
theorem sanitization_coverage :
    ∀ (t : String) (m : Model) (cols : List String) (cond : String) (args : List Value)
      (col op : String) (v : Value) (iter : List (String × Value)),
      (Table t).query.table = t
      ∧ (deleteQuery (Table t).query).1 = "DELETE FROM " ++ t
      ∧ (buildSelectQuery (Table t).query).1 = "SELECT " ++ (t ++ ".*") ++ " FROM " ++ t
      ∧ (updateQuery (Table t).query iter).1
          = "UPDATE " ++ t ++ " SET " ++ joinSep ", " (setItems iter 1)
      ∧ (createQuery t iter).1
          = "INSERT INTO " ++ t ++ " (" ++ joinSep ", " (iter.map (fun kv => sanitizeColumn kv.1))
              ++ ") VALUES (" ++ joinSep ", " (placeholders iter.length) ++ ") RETURNING *"
      ∧ (Select m cols).query.selections = cols.map sanitizeColumn
      ∧ (Join m t cond args).query.joins
          = m.query.joins ++ [⟨sanitizeTableName t, "INNER JOIN", cond, args⟩]
      ∧ Except.map (fun mm => mm.query.wheres.map WhereClause.column) (Where m col op v)
          = Except.map (fun _ => m.query.wheres.map WhereClause.column ++ [sanitizeColumn col])
              (Where m col op v) := by
  intro t m cols cond args col op v iter
  refine ⟨rfl, ?_, ?_, ?_, rfl, rfl, rfl, ?_⟩
  · simp [deleteQuery, Table, buildWhereClause, String.append_empty]
  · simp [buildSelectQuery, Table, joinRender, buildWhereClause, havingBody, joinSep,
      String.append_empty]
  · simp [updateQuery, Table, buildWhereClause, String.append_empty]
  · by_cases hmem : goToUpper op ∈ validOperators <;>
      simp [Where, hmem, Except.map, List.map_append]

/-- C3 counterexample: Go does not specify the iteration order of the field
map, so two renderings of the same Create call may emit the map entries in
different orders; the two orders below are permutations of the same
timestamp-extended field map yet render different SQL text. -/
theorem create_render_order_dependent :
    (List.reverse (createNewData (Value.time 7) [("a", Value.int 1), ("b", Value.int 2)])).Perm
      (createNewData (Value.time 7) [("a", Value.int 1), ("b", Value.int 2)])
    ∧ Create (Table "t") [("a", Value.int 1), ("b", Value.int 2)] (Value.time 7)
        (createNewData (Value.time 7) [("a", Value.int 1), ("b", Value.int 2)])
      = Except.ok (createQuery "t"
          (createNewData (Value.time 7) [("a", Value.int 1), ("b", Value.int 2)]))
    ∧ Create (Table "t") [("a", Value.int 1), ("b", Value.int 2)] (Value.time 7)
        (List.reverse (createNewData (Value.time 7) [("a", Value.int 1), ("b", Value.int 2)]))
      = Except.ok (createQuery "t"
          (List.reverse (createNewData (Value.time 7) [("a", Value.int 1), ("b", Value.int 2)])))
    ∧ (createQuery "t"
          (createNewData (Value.time 7) [("a", Value.int 1), ("b", Value.int 2)])).1
      ≠ (createQuery "t"
          (List.reverse (createNewData (Value.time 7) [("a", Value.int 1), ("b", Value.int 2)]))).1 :=
  ⟨List.reverse_perm _, rfl, rfl, by decide⟩

/-- C3 (amended): rendering is a pure function of the builder configuration
together with, for Create and Update, the iteration order of the fields map:
Get and Delete renderings are identical across repeated calls on equal
descriptors, and Create/Update renderings are identical whenever the map
iteration order is also equal (Go leaves that order unspecified, so only the
order-respecting determinism holds). -/
theorem render_deterministic_given_order :
    ∀ (q₁ q₂ : Query) (iter₁ iter₂ : List (String × Value)),
      q₁ = q₂ → iter₁ = iter₂ →
      buildSelectQuery q₁ = buildSelectQuery q₂
      ∧ deleteQuery q₁ = deleteQuery q₂
      ∧ createQuery q₁.table iter₁ = createQuery q₂.table iter₂
      ∧ updateQuery q₁ iter₁ = updateQuery q₂ iter₂ := by
  intro q₁ q₂ iter₁ iter₂ hq hiter
  subst hq
  subst hiter
  exact ⟨rfl, rfl, rfl, rfl⟩

/-- Witness for C3 (amended) at the users table and a one-field map. -/
theorem render_deterministic_given_order_witness :
    buildSelectQuery (Table "users").query = buildSelectQuery (Table "users").query
    ∧ deleteQuery (Table "users").query = deleteQuery (Table "users").query
    ∧ createQuery (Table "users").query.table [("a", Value.int 1)]
        = createQuery (Table "users").query.table [("a", Value.int 1)]
    ∧ updateQuery (Table "users").query [("a", Value.int 1)]
        = updateQuery (Table "users").query [("a", Value.int 1)] :=
  render_deterministic_given_order (Table "users").query (Table "users").query
    [("a", Value.int 1)] [("a", Value.int 1)] rfl rfl

/-- C7: Create and Update with an empty fields map fail with ErrInvalidValue
(the spec's InvalidArgument) for every database oracle — the result does not
depend on the oracle, so no SQL is rendered, no statement compiled, and
nothing executed. -/
theorem empty_fields_rejected :
    ∀ (exec : DbExec) (execC : DbExecCount) (m : Model) (now : Value)
      (iter : List (String × Value)),
      CreateRun exec m [] now iter = Except.error OrmError.invalidValue
      ∧ UpdateRun execC m [] iter = Except.error OrmError.invalidValue := by
  intro exec execC m now iter
  exact ⟨rfl, rfl⟩

/-- C6: First forces limit = 1 and takes the head of Get: against an oracle
returning zero rows, First fails with ErrNoRows (the spec's NotFound) while
Get on the same builder succeeds with the empty sequence; whenever Get of
the limit-1 query returns a non-empty sequence, First returns exactly its
first record mapping. -/
theorem first_head_semantics :
    ∀ (exec : DbExec) (m : Model),
      ((∀ q a, exec q a = Except.ok []) →
          First exec m = Except.error OrmError.noRows ∧ Get exec m = Except.ok [])
      ∧ (∀ (r : Row) (rs : List Row),
          Get exec { m with query := { m.query with limit := 1 } } = Except.ok (r :: rs) →
          First exec m = Except.ok r) := by
  intro exec m
  constructor
  · intro h
    exact ⟨by simp [First, Get, h], by simp [Get, h]⟩
  · intro r rs h
    simp [First, h]

/-- Witness for C6: an oracle for an empty table, and an oracle returning one
row. -/
theorem first_head_semantics_witness :
    (First (fun _ _ => Except.ok []) (Table "users") = Except.error OrmError.noRows
      ∧ Get (fun _ _ => Except.ok []) (Table "users") = Except.ok [])
    ∧ First (fun _ _ => Except.ok [[("id", Value.int 1)]]) (Table "users")
        = Except.ok [("id", Value.int 1)] :=
  ⟨(first_head_semantics (fun _ _ => Except.ok []) (Table "users")).1 (fun _ _ => rfl),
   (first_head_semantics (fun _ _ => Except.ok [[("id", Value.int 1)]]) (Table "users")).2
     [("id", Value.int 1)] [] rfl⟩

/-- The SET-clause loop produces the spec-side zipWith form: item `j` of the
emission order carries placeholder number `i + j`. -/
theorem setItems_eq : ∀ (iter : List (String × Value)) (i : Nat),
    setItems iter i = List.zipWith (fun kv j => sanitizeColumn kv.1 ++ " = $" ++ toString j)
      iter (List.range' i iter.length)
  | [], _ => rfl
  | (c, v) :: rest, i => by
    show (sanitizeColumn c ++ " = $" ++ toString i) :: setItems rest (i + 1) = _
    rw [setItems_eq rest (i + 1)]
    rfl

/-- C8: for every builder state and non-empty fields map, Update renders
`UPDATE <table> SET col = $n, ...` followed by the WHERE clause, with
placeholder numbering continuing monotonically from the SET clause (starting
at $1) into the WHERE clause, and the args are the SET values followed by the
WHERE values; the spec scenario
`Table("users").Where("id","=",1)` + `Update({"email":"new@x.com"})` renders
`UPDATE users SET email = $1 WHERE id = $2` with args `["new@x.com", 1]`. -/
theorem update_rendering :
    (∀ (m : Model) (data iter : List (String × Value)),
        data ≠ [] → iter.Perm data →
        Update m data iter = Except.ok (specUpdateQuery m.query iter))
    ∧ Except.bind (Where (Table "users") "id" "=" (Value.int 1))
        (fun m => Update m [("email", Value.str "new@x.com")] [("email", Value.str "new@x.com")])
      = Except.ok ("UPDATE users SET email = $1 WHERE id = $2",
          [Value.str "new@x.com", Value.int 1]) := by
  constructor
  · intro m data iter hne _hperm
    have hd : data.isEmpty = false := by
      cases data with
      | nil => exact absurd rfl hne
      | cons a l => rfl
    simp only [Update, hd, Bool.false_eq_true, if_false]
    simp [updateQuery, specUpdateQuery, setItems_eq, buildWhereClause_eq_spec]
  · rfl

/-- Witness for C8 at a one-field map with no where clause. -/
theorem update_rendering_witness :
    Update (Table "users") [("email", Value.str "e")] [("email", Value.str "e")]
      = Except.ok (specUpdateQuery (Table "users").query [("email", Value.str "e")]) :=
  update_rendering.1 (Table "users") [("email", Value.str "e")] [("email", Value.str "e")]
    (by simp) (List.Perm.refl _)

/-- Go map lookup over an appended binding list, when the key is found on the
left. -/
theorem mapGet_append_of_isSome (k : String) (l₁ l₂ : List (String × Value))
    (h : (mapGet k l₁).isSome = true) : mapGet k (l₁ ++ l₂) = mapGet k l₁ := by
  induction l₁ with
  | nil => simp [mapGet] at h
  | cons p rest ih =>
    obtain ⟨a, v⟩ := p
    by_cases hk : k = a
    · simp [mapGet, hk]
    · simp only [mapGet, if_neg hk] at h ⊢
      exact ih h

/-- Go map lookup over an appended binding list, when the key is absent on
the left. -/
theorem mapGet_append_of_none (k : String) (l₁ l₂ : List (String × Value))
    (h : mapGet k l₁ = none) : mapGet k (l₁ ++ l₂) = mapGet k l₂ := by
  induction l₁ with
  | nil => rfl
  | cons p rest ih =>
    obtain ⟨a, v⟩ := p
    by_cases hk : k = a
    · simp [mapGet, hk] at h
    · simp only [mapGet, if_neg hk] at h ⊢
      exact ih h

/-- Lookup of a key in a one-binding list. -/
theorem mapGet_single (k a : String) (v : Value) :
    mapGet k [(a, v)] = if k = a then some v else none := rfl

/-- Lookup in an appended binding list whose appended key differs from the
looked-up key is the lookup in the original list. -/
theorem mapGet_append_single_ne (k a : String) (v : Value) (l : List (String × Value))
    (h : k ≠ a) : mapGet k (l ++ [(a, v)]) = mapGet k l := by
  cases hm : mapGet k l with
  | some w => rw [mapGet_append_of_isSome k l _ (by simp [hm]), hm]
  | none => rw [mapGet_append_of_none k l _ hm, mapGet_single, if_neg h]

/-- The created_at step does not change the updated_at binding. -/
theorem createD1_updated (now : Value) (data : List (String × Value)) :
    mapGet "updated_at" (createD1 now data) = mapGet "updated_at" data := by
  unfold createD1
  by_cases h : (mapGet "created_at" data).isSome
  · rw [if_pos h]
  · rw [if_neg h]
    exact mapGet_append_single_ne _ _ _ _ (by decide)

/-- After the created_at step, the created_at binding is the caller's value
when supplied and `now` otherwise. -/
theorem createD1_created (now : Value) (data : List (String × Value)) :
    mapGet "created_at" (createD1 now data) = some ((mapGet "created_at" data).getD now) := by
  unfold createD1
  cases hm : mapGet "created_at" data with
  | some w => rw [if_pos (by simp [hm]), hm]; rfl
  | none =>
    rw [if_neg (by simp [hm]), mapGet_append_of_none _ _ _ hm, mapGet_single, if_pos rfl]
    rfl

/-- The created_at step does not change any binding other than created_at. -/
theorem createD1_other (now : Value) (data : List (String × Value)) (k : String)
    (h : k ≠ "created_at") : mapGet k (createD1 now data) = mapGet k data := by
  unfold createD1
  by_cases hm : (mapGet "created_at" data).isSome
  · rw [if_pos hm]
  · rw [if_neg hm]
    exact mapGet_append_single_ne _ _ _ _ h

/-- Key list after the created_at step. -/
theorem createD1_keys (now : Value) (data : List (String × Value)) :
    (createD1 now data).map Prod.fst = data.map Prod.fst
      ++ (if (mapGet "created_at" data).isSome then [] else ["created_at"]) := by
  unfold createD1
  by_cases hm : (mapGet "created_at" data).isSome
  · simp [hm]
  · simp [hm]

/-- Lookup facts and key list of the timestamp-extended field map: created_at
and updated_at are the caller's values when supplied and `now` otherwise,
every other key is bound exactly as the caller supplied it, and the key list
is the caller's keys plus the missing timestamp keys. -/
theorem createNewData_spec (now : Value) (data : List (String × Value)) :
    mapGet "created_at" (createNewData now data) = some ((mapGet "created_at" data).getD now)
    ∧ mapGet "updated_at" (createNewData now data) = some ((mapGet "updated_at" data).getD now)
    ∧ (∀ k, k ≠ "created_at" → k ≠ "updated_at" →
        mapGet k (createNewData now data) = mapGet k data)
    ∧ (createNewData now data).map Prod.fst = data.map Prod.fst
        ++ (if (mapGet "created_at" data).isSome then [] else ["created_at"])
        ++ (if (mapGet "updated_at" data).isSome then [] else ["updated_at"]) := by
  simp only [createNewData]
  rw [createD1_updated]
  by_cases hu : (mapGet "updated_at" data).isSome = true
  · rw [if_pos hu]
    obtain ⟨w, hw⟩ := Option.isSome_iff_exists.mp hu
    refine ⟨createD1_created now data, ?_, ?_, ?_⟩
    · rw [createD1_updated, hw]
      rfl
    · intro k hkc _hku
      exact createD1_other now data k hkc
    · rw [createD1_keys]
      simp [hu]
  · rw [if_neg hu]
    have hun : mapGet "updated_at" data = none := by
      cases hm : mapGet "updated_at" data with
      | some w => rw [hm] at hu; simp at hu
      | none => rfl
    refine ⟨?_, ?_, ?_, ?_⟩
    · rw [mapGet_append_single_ne _ _ _ _ (by decide)]
      exact createD1_created now data
    · rw [mapGet_append_of_none _ _ _ (by rw [createD1_updated]; exact hun),
        mapGet_single, if_pos rfl, hun]
      rfl
    · intro k hkc hku
      rw [mapGet_append_single_ne _ _ _ _ hku]
      exact createD1_other now data k hkc
    · rw [List.map_append, createD1_keys]
      simp [hun]

/-- C9: for every non-empty fields map and every iteration order of the
timestamp-extended map, Create renders an INSERT over exactly that map: its
column set is the caller's keys plus created_at and updated_at exactly when
the caller did not supply them, the created_at/updated_at values are the
caller's when supplied and the current timestamp otherwise, every other
binding is forwarded unchanged, and the argument list is the iterated values
in order. -/
theorem create_auto_timestamps :
    ∀ (now : Value) (data : List (String × Value)) (m : Model)
      (iter : List (String × Value)),
      data ≠ [] → iter.Perm (createNewData now data) →
      Create m data now iter = Except.ok (createQuery m.query.table iter)
      ∧ (createQuery m.query.table iter).2 = iter.map Prod.snd
      ∧ (iter.map Prod.fst).Perm (data.map Prod.fst
          ++ (if (mapGet "created_at" data).isSome then [] else ["created_at"])
          ++ (if (mapGet "updated_at" data).isSome then [] else ["updated_at"]))
      ∧ mapGet "created_at" (createNewData now data)
          = some ((mapGet "created_at" data).getD now)
      ∧ mapGet "updated_at" (createNewData now data)
          = some ((mapGet "updated_at" data).getD now)
      ∧ (∀ k, k ≠ "created_at" → k ≠ "updated_at" →
          mapGet k (createNewData now data) = mapGet k data) := by
  intro now data m iter hne hperm
  obtain ⟨hc, hu, hother, hkeys⟩ := createNewData_spec now data
  have hd : data.isEmpty = false := by
    cases data with
    | nil => exact absurd rfl hne
    | cons a l => rfl
  refine ⟨?_, rfl, ?_, hc, hu, hother⟩
  · simp only [Create, hd, Bool.false_eq_true, if_false]
  · rw [← hkeys]
    exact hperm.map Prod.fst

/-- Witness for C9: one caller-supplied field, timestamps auto-added. -/
theorem create_auto_timestamps_witness :
    Create (Table "users") [("username", Value.str "alice")] (Value.time 99)
        (createNewData (Value.time 99) [("username", Value.str "alice")])
      = Except.ok (createQuery (Table "users").query.table
          (createNewData (Value.time 99) [("username", Value.str "alice")]))
    ∧ mapGet "created_at"
          (createNewData (Value.time 99) [("username", Value.str "alice")])
        = some ((mapGet "created_at" [("username", Value.str "alice")]).getD (Value.time 99)) :=
  ⟨(create_auto_timestamps (Value.time 99) [("username", Value.str "alice")] (Table "users")
      (createNewData (Value.time 99) [("username", Value.str "alice")])
      (by simp) (List.Perm.refl _)).1,
   (create_auto_timestamps (Value.time 99) [("username", Value.str "alice")] (Table "users")
      (createNewData (Value.time 99) [("username", Value.str "alice")])
      (by simp) (List.Perm.refl _)).2.2.2.1⟩

/-- The cache invariant holds in the initial state. -/
theorem cacheInv_init (n : Nat) : CacheInv (initState n) := by
  left
  refine ⟨rfl, rfl, ?_⟩
  intro t h
  simp [initState]

/-- Every step of the prepareQuery model preserves the cache invariant. -/
theorem cacheInv_step {n : Nat} {s s' : CacheState n} (hs : Step n s s') (hinv : CacheInv s) :
    CacheInv s' := by
  cases hs with
  | readHit t h ht hc =>
    rcases hinv with ⟨hc0, _, _⟩ | ⟨hc0, hcnt, hdone⟩
    · rw [hc0] at hc
      cases hc
    · right
      refine ⟨hc0, hcnt, ?_⟩
      intro t' h' ht'
      dsimp only at ht'
      obtain rfl : h = 0 := by
        rw [hc0] at hc
        exact (Option.some.inj hc).symm
      by_cases he : t' = t
      · subst he
        rw [Function.update_same] at ht'
        exact (TState.done.inj ht').symm
      · rw [Function.update_noteq he] at ht'
        exact hdone t' h' ht'
  | readMiss t ht hc =>
    rcases hinv with ⟨hc0, hcnt, hnone⟩ | ⟨hc0, hcnt, hdone⟩
    · left
      refine ⟨hc0, hcnt, ?_⟩
      intro t' h'
      dsimp only
      by_cases he : t' = t
      · subst he
        rw [Function.update_same]
        intro hcontra
        cases hcontra
      · rw [Function.update_noteq he]
        exact hnone t' h'
    · rw [hc0] at hc
      cases hc
  | lockHit t h ht hc =>
    rcases hinv with ⟨hc0, _, _⟩ | ⟨hc0, hcnt, hdone⟩
    · rw [hc0] at hc
      cases hc
    · right
      refine ⟨hc0, hcnt, ?_⟩
      intro t' h' ht'
      dsimp only at ht'
      obtain rfl : h = 0 := by
        rw [hc0] at hc
        exact (Option.some.inj hc).symm
      by_cases he : t' = t
      · subst he
        rw [Function.update_same] at ht'
        exact (TState.done.inj ht').symm
      · rw [Function.update_noteq he] at ht'
        exact hdone t' h' ht'
  | lockCompile t ht hc =>
    rcases hinv with ⟨hc0, hcnt, hnone⟩ | ⟨hc0, hcnt, hdone⟩
    · right
      refine ⟨by dsimp only; rw [hcnt], by dsimp only; rw [hcnt], ?_⟩
      intro t' h' ht'
      dsimp only at ht'
      by_cases he : t' = t
      · subst he
        rw [Function.update_same] at ht'
        rw [← TState.done.inj ht']
        exact hcnt
      · rw [Function.update_noteq he] at ht'
        exact absurd ht' (hnone t' h')
    · rw [hc0] at hc
      cases hc

/-- The cache invariant holds in every state reachable from the initial
state. -/
theorem cacheInv_reachable {n : Nat} {s : CacheState n}
    (h : Relation.ReflTransGen (Step n) (initState n) s) : CacheInv s := by
  induction h with
  | refl => exact cacheInv_init n
  | tail _hsteps hstep ih => exact cacheInv_step hstep ih

/-- C10: in the double-checked-locking model of prepareQuery, any complete
run of N ≥ 1 concurrent callers compiling the same SQL text performs exactly
one compilation, leaves that single handle in the cache, and every caller
finishes holding that same usable handle. -/
theorem prepare_compiles_once :
    ∀ (n : Nat) (s : CacheState n), 1 ≤ n →
      Relation.ReflTransGen (Step n) (initState n) s →
      (∀ t, ∃ h, s.threads t = TState.done h) →
      s.compiles = 1 ∧ s.cache = some 0 ∧ ∀ t, s.threads t = TState.done 0 := by
  intro n s hn hreach hdone
  have hinv := cacheInv_reachable hreach
  rcases hinv with ⟨_, _, hnone⟩ | ⟨hc, hcnt, hall⟩
  · obtain ⟨h0, ht0⟩ := hdone ⟨0, hn⟩
    exact absurd ht0 (hnone _ h0)
  · refine ⟨hcnt, hc, ?_⟩
    intro t
    obtain ⟨h, ht⟩ := hdone t
    have hh0 := hall t h ht
    rw [hh0] at ht
    exact ht

/-- Witness for C10: a single caller misses on its optimistic read, takes the
exclusive lock, compiles once, and finishes with handle 0. -/
theorem prepare_compiles_once_witness :
    soloRunEnd.compiles = 1 ∧ soloRunEnd.cache = some 0
      ∧ soloRunEnd.threads 0 = TState.done 0 := by
  have step1 : Step 1 (initState 1) soloRunMid :=
    Step.readMiss (initState 1) 0 rfl rfl
  have step2 : Step 1 soloRunMid soloRunEnd :=
    Step.lockCompile soloRunMid 0 (by simp [soloRunMid, Function.update_same]) rfl
  have hreach := Relation.ReflTransGen.head step1 (Relation.ReflTransGen.single step2)
  have hdone : ∀ t : Fin 1, ∃ h, soloRunEnd.threads t = TState.done h := by
    intro t
    refine ⟨0, ?_⟩
    rw [Fin.eq_zero t]
    simp [soloRunEnd, Function.update_same]
  have hmain := prepare_compiles_once 1 soloRunEnd (by decide) hreach hdone
  exact ⟨hmain.1, hmain.2.1, hmain.2.2 0⟩

end Orm
